import Mathlib

/-!
# Verification of the circle-selection gesture of `aladin-lite`

Shallow embedding of `src/js/FiniteStateMachine/CircleSelect.js`: the
circle-selection gesture controller, a configuration of a small table-driven
finite state machine.  Pointer coordinates are idealised as real numbers and
`Math.sqrt` as `Real.sqrt`.  Side effects on the view collaborator (cursor,
reticle, interaction mode, canvas painting, callback invocations) are recorded
both in an explicit view-state record and as an ordered trace of `Effect`s.
-/

namespace CircleSelect

/-- A pointer coordinate pair, the `coo` objects carried by pointer events
(`§6`: numeric `x`, `y` in surface space). -/
structure Coo where
  x : ℝ
  y : ℝ

/-- Modelled from the spec: the view interaction modes (`View.SELECT`,
`View.PAN` of `View.js`, which is not under `src/`); §6: "mode is one of an
enumerated set including \"select\" and \"pan\"". -/
inductive Mode where
  | select
  | pan
deriving DecidableEq

/-- The `{color, lineWidth}` style options the controller is constructed
with. -/
structure Options where
  color : String
  lineWidth : ℝ

/-- Modelled from the spec: the observable state of the view collaborator
(`View.js`, not under `src/`) that the gesture handlers read or mutate:
cursor shape, reticle visibility, interaction mode, the one-shot
`catalogCanvasCleared` flag, the canvas dimensions used by `clearRect`,
and whether a `callbacksByEventName['select']` function is registered. -/
structure ViewState where
  cursor : String
  reticleShown : Bool
  mode : Mode
  catalogCanvasCleared : Bool
  width : ℝ
  height : ℝ
  selectCallbackRegistered : Bool

/-- The axis-aligned bounding box `{x, y, w, h}` returned by `bbox()`. -/
@[ext]
structure Bbox where
  x : ℝ
  y : ℝ
  w : ℝ
  h : ℝ

/-- The Region descriptor built in the `mouseup` handler: geometric
parameters `x`, `y`, `r`, the `label` tag, and the squared radius `r2`
captured by the `contains` closure. -/
structure Region where
  x : ℝ
  y : ℝ
  r : ℝ
  r2 : ℝ
  label : String

/-- `contains(s)` of the Region descriptor: compares the squared distance
from the centre against the captured squared radius `r2`
(`dx*dx + dy*dy <= r2`); no square root is taken. -/
def Region.contains (reg : Region) (s : Coo) : Prop :=
  (s.x - reg.x) * (s.x - reg.x) + (s.y - reg.y) * (s.y - reg.y) ≤ reg.r2

/-- `bbox()` of the Region descriptor:
`{x: x - r, y: y - r, w: 2*r, h: 2*r}`. -/
def Region.bbox (reg : Region) : Bbox :=
  { x := reg.x - reg.r, y := reg.y - reg.r, w := 2 * reg.r, h := 2 * reg.r }

/-- The Region descriptor built by the `mouseup` handler from the anchor `a`
(`this.startCoo`) and the release position `c` (`this.coo`):
`r2` is the squared Euclidean distance, `r = Math.sqrt(r2)`, the centre is
the anchor, and the label is `'circle'`. -/
noncomputable def mkRegion (a c : Coo) : Region :=
  let r2 := (c.x - a.x) * (c.x - a.x) + (c.y - a.y) * (c.y - a.y)
  { x := a.x, y := a.y, r := Real.sqrt r2, r2 := r2, label := "circle" }

/-- One observable side effect performed by a handler, in program order.
`undefinedRead` records the `TypeError` the JavaScript would raise when a
handler dereferences `this.coo.x` or `this.startCoo.x` while the field is
still `undefined`. -/
inductive Effect where
  | setCursor (c : String)
  | showReticle (b : Bool)
  | setMode (m : Mode)
  | requestRedraw
  | clearRect (w h : ℝ)
  | setStyle (fill stroke : String) (lineWidth : ℝ)
  | paintCircle (cx cy r : ℝ)
  | invokeCallback (reg : Region)
  | selectNotify
  | undefinedRead

/-- The `params` object passed to `dispatch`: handlers destructure an
optional `callback` (modelled by presence: `typeof callback === 'function'`)
and an optional `coo`. -/
structure Params where
  callback : Bool := false
  coo : Option Coo := none

/-- The empty `params` object (no callback, no coordinate). -/
def noParams : Params := {}

/-- The whole mutable state the handlers close over: the construction-time
style options, the FSM's current state name, the gesture-local fields
`startCoo`, `coo` and `callback` (all `undefined` on a fresh instance),
and the view collaborator's state. -/
structure Machine where
  opts : Options
  state : String
  startCoo : Option Coo
  coo : Option Coo
  callback : Bool
  view : ViewState

/-- A transition handler: receives the event `params` and transforms the
machine state, emitting a trace of side effects. -/
def Handler : Type :=
  Params → Machine → Machine × List Effect

/-- The `start` handler: `setCursor('crosshair')`, `showReticle(false)`,
`this.callback = callback`, `setMode(View.SELECT)`. -/
def start : Handler := fun p m =>
  ({ m with
      callback := p.callback,
      view := { m.view with
                  cursor := "crosshair",
                  reticleShown := false,
                  mode := Mode.select } },
   [Effect.setCursor "crosshair", Effect.showReticle false,
    Effect.setMode Mode.select])

/-- The `mousedown` handler: `this.startCoo = coo` (starts a new
selection). -/
def mousedown : Handler := fun p m =>
  ({ m with startCoo := p.coo }, [])

/-- The `mousemove` handler: `this.coo = coo; view.requestRedraw()`. -/
def mousemove : Handler := fun p m =>
  ({ m with coo := p.coo }, [Effect.requestRedraw])

/-- The `draw` handler: clears the catalog canvas once per frame cycle
(guarded by `view.catalogCanvasCleared`), sets the fill/stroke style from the
options, computes `r` as the Euclidean distance from `this.startCoo` to
`this.coo`, and paints the filled and stroked circle.  If `this.coo` or
`this.startCoo` is still `undefined` the unguarded reads raise, modelled by
the `undefinedRead` effect. -/
noncomputable def draw : Handler := fun _ m =>
  match m.coo, m.startCoo with
  | some c, some a =>
    let r2 := (c.x - a.x) * (c.x - a.x) + (c.y - a.y) * (c.y - a.y)
    let r := Real.sqrt r2
    ({ m with view := { m.view with catalogCanvasCleared := true } },
     (if m.view.catalogCanvasCleared then []
      else [Effect.clearRect m.view.width m.view.height])
       ++ [Effect.setStyle (m.opts.color ++ "7f") m.opts.color m.opts.lineWidth,
           Effect.paintCircle a.x a.y r])
  | _, _ => (m, [Effect.undefinedRead])

/-- The `mouseup` handler (also aliased as `mouseout`): `this.coo = coo`,
computes `r2` and `r = Math.sqrt(r2)`, takes `x`, `y` from `this.startCoo`,
invokes the stored completion callback with the Region descriptor if one was
supplied (`typeof this.callback === 'function'`), restores the reticle and
the default cursor, invokes the view's registered `'select'` callback (with
the objects from `view.selectObjects(this)`) when present, switches the mode
back to `View.PAN` and requests a redraw.  If `this.coo` or `this.startCoo`
is `undefined` the unguarded reads raise, modelled by `undefinedRead`. -/
noncomputable def mouseup : Handler := fun p m =>
  match p.coo, m.startCoo with
  | some c, some a =>
    ({ m with
        coo := p.coo,
        view := { m.view with
                    reticleShown := true,
                    cursor := "default",
                    mode := Mode.pan } },
     (if m.callback then [Effect.invokeCallback (mkRegion a c)] else [])
       ++ [Effect.showReticle true, Effect.setCursor "default"]
       ++ (if m.view.selectCallbackRegistered then [Effect.selectNotify] else [])
       ++ [Effect.setMode Mode.pan, Effect.requestRedraw])
  | _, _ => ({ m with coo := p.coo }, [Effect.undefinedRead])

/-- `let mouseout = mouseup;` — losing pointer capture finalizes the gesture
through the very same handler as a release. -/
noncomputable def mouseout : Handler := mouseup

/-- JavaScript object-property lookup (`obj[key]`) on an object literal,
read as an ordered association list: the first binding of the key wins,
a missing key yields `undefined`. -/
def assocLookup {α : Type} (key : String) : List (String × α) → Option α
  | [] => none
  | (k, v) :: rest => if key == k then some v else assocLookup key rest

/-- The transition table passed to `super` by the `CircleSelect`
constructor, state by state exactly as the nested object literal is written
(shorthand properties: the key of each handler is the handler's own name,
and the `mouseout` key holds the `mouseout` alias of `mouseup`). -/
noncomputable def circleTransitions : List (String × List (String × Handler)) :=
  [("start", [("mousedown", mousedown)]),
   ("mousedown", [("mousemove", mousemove)]),
   ("mousemove", [("draw", draw), ("mouseup", mouseup), ("mouseout", mouseout)]),
   ("draw", [("mousemove", mousemove), ("mouseup", mouseup), ("mouseout", mouseout)]),
   ("mouseout", [("start", start)]),
   ("mouseup", [("start", start)])]

/-- `transitions[state][event]`: the handler registered for the pair
(current state, event name), if any. -/
noncomputable def lookupHandler (s e : String) : Option Handler :=
  match assocLookup s circleTransitions with
  | some evs => assocLookup e evs
  | none => none

/-- Modelled from the spec: the generic FSM engine (`class FSM` of
`src/js/FiniteStateMachine.js`, which is not under `src/`).  §4.1:
`dispatch(eventName, params)` looks up `transitions[currentState][eventName]`;
if absent it is a no-op (unrecognized events are silently ignored); if
present it invokes the handler with `params` and then sets
`currentState = eventName` (the handler key doubles as the destination
state name). -/
noncomputable def dispatch (m : Machine) (e : String) (p : Params) :
    Machine × List Effect :=
  match lookupHandler m.state e with
  | none => (m, [])
  | some f =>
    let r := f p m
    ({ r.1 with state := e }, r.2)

/-- Modelled from the spec: §5's ordering guarantee — events are processed
strictly in arrival order, each one fully completed before the next begins.
`run` folds `dispatch` over a sequence of (event name, params) pairs,
concatenating the emitted effect traces. -/
noncomputable def run (m : Machine) : List (String × Params) → Machine × List Effect
  | [] => (m, [])
  | (e, p) :: rest =>
    let r := dispatch m e p
    let r2 := run r.1 rest
    (r2.1, r.2 ++ r2.2)

/-- A fresh `CircleSelect` instance: the `super` call sets the initial FSM
state to `'mouseup'`; the gesture-local fields `startCoo`, `coo` and
`callback` are still `undefined`. -/
def initMachine (o : Options) (v : ViewState) : Machine :=
  { opts := o, state := "mouseup", startCoo := none, coo := none,
    callback := false, view := v }

/-- The Region descriptors delivered to the completion callback, in order,
read off an effect trace. -/
def regionsDelivered : List Effect → List Region
  | [] => []
  | Effect.invokeCallback reg :: rest => reg :: regionsDelivered rest
  | _ :: rest => regionsDelivered rest

/-- The gesture-visible part of the machine state: everything except the
FSM's current state name. -/
def gestureOf (m : Machine) : Option Coo × Option Coo × Bool × ViewState :=
  (m.startCoo, m.coo, m.callback, m.view)

/-- The state keys of the transition table, in table order. -/
noncomputable def stateKeys : List String := circleTransitions.map Prod.fst

/-- The anchor coordinates contributed by one dispatched event: a
`mousedown` event contributes the coordinate it carries, every other event
contributes nothing. -/
def mdCoos (e : String) (p : Params) : List Coo :=
  if e = "mousedown" then p.coo.toList else []

/-- All anchor coordinates carried by the `mousedown` events of a
sequence. -/
def mousedownCoos : List (String × Params) → List Coo
  | [] => []
  | (e, p) :: rest => mdCoos e p ++ mousedownCoos rest

/-- The anchor points actually read by the handlers of a trace: the centre
painted by `draw`, and the centre of every Region delivered by
finalization. -/
def anchorReads : List Effect → List Coo
  | [] => []
  | Effect.paintCircle cx cy _ :: rest => ⟨cx, cy⟩ :: anchorReads rest
  | Effect.invokeCallback reg :: rest => ⟨reg.x, reg.y⟩ :: anchorReads rest
  | _ :: rest => anchorReads rest

/-- Anchor provenance invariant: in the in-gesture states the stored anchor,
when present, is one of the allowed coordinates `S`. -/
def anchorOk (S : List Coo) (m : Machine) : Prop :=
  (m.state = "mousedown" ∨ m.state = "mousemove" ∨ m.state = "draw") →
    m.startCoo = none ∨ ∃ x ∈ S, m.startCoo = some x

/-- The pointer events, which per §6 always carry a `coo` payload. -/
def ptrEvent (e : String) : Bool :=
  e == "mousedown" || e == "mousemove" || e == "mouseup" || e == "mouseout"

/-- Well-formedness of an event sequence: every pointer event carries a
coordinate (§6: "each event carries a `coo` object with numeric x, y"). -/
def wfSeq (seq : List (String × Params)) : Bool :=
  seq.all fun ep => !ptrEvent ep.1 || ep.2.coo.isSome

/-- Definedness invariant: in state `'mousedown'` the anchor is set; in the
states from which `draw` and the finalization handlers can fire, both the
anchor and the latest pointer position are set. -/
def coosOk (m : Machine) : Prop :=
  (m.state = "mousedown" → m.startCoo.isSome = true) ∧
  ((m.state = "mousemove" ∨ m.state = "draw") →
    m.startCoo.isSome = true ∧ m.coo.isSome = true)

/-- A concrete options record for concrete executions. -/
def opts0 : Options := { color := "#ff0000", lineWidth := 2 }

/-- A concrete initial view state for concrete executions: default cursor,
reticle shown, pan mode, canvas not yet cleared, no registered `'select'`
callback. -/
def view0 : ViewState :=
  { cursor := "default", reticleShown := true, mode := Mode.pan,
    catalogCanvasCleared := false, width := 100, height := 100,
    selectCallbackRegistered := false }

/-! ## Inversion lemmas for the transition-table lookup -/

/-- Inversion of the outer lookup: the table rows, state key by state key. -/
theorem rows_cases {s : String} {evs : List (String × Handler)}
    (hr : assocLookup s circleTransitions = some evs) :
    (s = "start" ∧ evs = [("mousedown", mousedown)]) ∨
    (s = "mousedown" ∧ evs = [("mousemove", mousemove)]) ∨
    (s = "mousemove" ∧ evs = [("draw", draw), ("mouseup", mouseup), ("mouseout", mouseup)]) ∨
    (s = "draw" ∧ evs = [("mousemove", mousemove), ("mouseup", mouseup), ("mouseout", mouseup)]) ∨
    (s = "mouseout" ∧ evs = [("start", start)]) ∨
    (s = "mouseup" ∧ evs = [("start", start)]) := by
  unfold circleTransitions at hr
  simp only [assocLookup, beq_iff_eq, mouseout] at hr
  repeat' split at hr
  all_goals first
    | exact Option.noConfusion hr
    | (injection hr with hevs; subst hevs; tauto)

/-- Inversion of the inner lookup on a one-entry event row. -/
theorem inner_single {e k : String} {g f : Handler}
    (h : assocLookup e [(k, g)] = some f) : e = k ∧ f = g := by
  simp only [assocLookup, beq_iff_eq] at h
  by_cases h1 : e = k
  · rw [if_pos h1] at h
    exact ⟨h1, (Option.some.inj h).symm⟩
  · rw [if_neg h1] at h
    exact Option.noConfusion h

/-- Inversion of the inner lookup on a three-entry event row. -/
theorem inner_triple {e k1 k2 k3 : String} {g1 g2 g3 f : Handler}
    (h : assocLookup e [(k1, g1), (k2, g2), (k3, g3)] = some f) :
    (e = k1 ∧ f = g1) ∨ (e = k2 ∧ f = g2) ∨ (e = k3 ∧ f = g3) := by
  simp only [assocLookup, beq_iff_eq] at h
  by_cases h1 : e = k1
  · rw [if_pos h1] at h
    exact Or.inl ⟨h1, (Option.some.inj h).symm⟩
  · rw [if_neg h1] at h
    by_cases h2 : e = k2
    · rw [if_pos h2] at h
      exact Or.inr (Or.inl ⟨h2, (Option.some.inj h).symm⟩)
    · rw [if_neg h2] at h
      by_cases h3 : e = k3
      · rw [if_pos h3] at h
        exact Or.inr (Or.inr ⟨h3, (Option.some.inj h).symm⟩)
      · rw [if_neg h3] at h
        exact Option.noConfusion h

/-- Complete inversion of `lookupHandler`: the ten (state, event, handler)
transitions of the circle-selection table, and nothing else. -/
theorem lookupHandler_cases {s e : String} {f : Handler}
    (h : lookupHandler s e = some f) :
    (s = "start" ∧ e = "mousedown" ∧ f = mousedown) ∨
    (s = "mousedown" ∧ e = "mousemove" ∧ f = mousemove) ∨
    (s = "mousemove" ∧ e = "draw" ∧ f = draw) ∨
    (s = "mousemove" ∧ e = "mouseup" ∧ f = mouseup) ∨
    (s = "mousemove" ∧ e = "mouseout" ∧ f = mouseup) ∨
    (s = "draw" ∧ e = "mousemove" ∧ f = mousemove) ∨
    (s = "draw" ∧ e = "mouseup" ∧ f = mouseup) ∨
    (s = "draw" ∧ e = "mouseout" ∧ f = mouseup) ∨
    (s = "mouseout" ∧ e = "start" ∧ f = start) ∨
    (s = "mouseup" ∧ e = "start" ∧ f = start) := by
  unfold lookupHandler at h
  rcases hr : assocLookup s circleTransitions with _ | evs <;> rw [hr] at h
  · exact Option.noConfusion h
  · have h' : assocLookup e evs = some f := h
    rcases rows_cases hr with ⟨hs, hevs⟩ | ⟨hs, hevs⟩ | ⟨hs, hevs⟩ | ⟨hs, hevs⟩ |
      ⟨hs, hevs⟩ | ⟨hs, hevs⟩
    · rcases inner_single (hevs ▸ h') with ⟨he, hf⟩
      exact Or.inl ⟨hs, he, hf⟩
    · rcases inner_single (hevs ▸ h') with ⟨he, hf⟩
      exact Or.inr (Or.inl ⟨hs, he, hf⟩)
    · rcases inner_triple (hevs ▸ h') with ⟨he, hf⟩ | ⟨he, hf⟩ | ⟨he, hf⟩
      · exact Or.inr (Or.inr (Or.inl ⟨hs, he, hf⟩))
      · exact Or.inr (Or.inr (Or.inr (Or.inl ⟨hs, he, hf⟩)))
      · exact Or.inr (Or.inr (Or.inr (Or.inr (Or.inl ⟨hs, he, hf⟩))))
    · rcases inner_triple (hevs ▸ h') with ⟨he, hf⟩ | ⟨he, hf⟩ | ⟨he, hf⟩
      · exact Or.inr (Or.inr (Or.inr (Or.inr (Or.inr (Or.inl ⟨hs, he, hf⟩)))))
      · exact Or.inr (Or.inr (Or.inr (Or.inr (Or.inr (Or.inr (Or.inl ⟨hs, he, hf⟩))))))
      · exact Or.inr (Or.inr (Or.inr (Or.inr (Or.inr (Or.inr (Or.inr (Or.inl ⟨hs, he, hf⟩)))))))
    · rcases inner_single (hevs ▸ h') with ⟨he, hf⟩
      exact Or.inr (Or.inr (Or.inr (Or.inr (Or.inr (Or.inr (Or.inr (Or.inr (Or.inl ⟨hs, he, hf⟩))))))))
    · rcases inner_single (hevs ▸ h') with ⟨he, hf⟩
      exact Or.inr (Or.inr (Or.inr (Or.inr (Or.inr (Or.inr (Or.inr (Or.inr (Or.inr ⟨hs, he, hf⟩))))))))

/-- In every state of the table, the `mouseout` event resolves to exactly the
same handler as the `mouseup` event (including both being unregistered). -/
theorem lookup_mouseout_eq_mouseup (s : String) :
    lookupHandler s "mouseout" = lookupHandler s "mouseup" := by
  unfold lookupHandler
  rcases hr : assocLookup s circleTransitions with _ | evs
  · rfl
  · rcases rows_cases hr with ⟨hs, hevs⟩ | ⟨hs, hevs⟩ | ⟨hs, hevs⟩ | ⟨hs, hevs⟩ |
      ⟨hs, hevs⟩ | ⟨hs, hevs⟩ <;> subst hevs <;> rfl

/-- Unfolding `dispatch` when a handler is registered. -/
theorem dispatch_eq_some {m : Machine} {e : String} {p : Params} {f : Handler}
    (hd : lookupHandler m.state e = some f) :
    dispatch m e p = ({ (f p m).1 with state := e }, (f p m).2) := by
  unfold dispatch; rw [hd]

/-- Unfolding `dispatch` when no handler is registered. -/
theorem dispatch_eq_none {m : Machine} {e : String} {p : Params}
    (hd : lookupHandler m.state e = none) :
    dispatch m e p = (m, []) := by
  unfold dispatch; rw [hd]

/-- Unfolding `run` on a cons cell. -/
theorem run_cons (m : Machine) (e : String) (p : Params)
    (rest : List (String × Params)) :
    run m ((e, p) :: rest) =
      ((run (dispatch m e p).1 rest).1,
       (dispatch m e p).2 ++ (run (dispatch m e p).1 rest).2) := rfl

/-! ## Claim theorems: event sequences, finalization, Region geometry -/

/-- Claim C1 (counterexample): dispatching `start`, then `mousedown` at
(0, 0), then `mouseup` at (3, 4) on a fresh instance delivers NO Region
descriptor at all — in state `'mousedown'` the `mouseup` event is not
registered, so the third dispatch is a no-op and the machine stays in state
`'mousedown'`. -/
theorem c1_counterexample :
    regionsDelivered (run (initMachine opts0 view0)
      [("start", { callback := true }),
       ("mousedown", { coo := some ⟨0, 0⟩ }),
       ("mouseup", { coo := some ⟨3, 4⟩ })]).2 = [] ∧
    (run (initMachine opts0 view0)
      [("start", { callback := true }),
       ("mousedown", { coo := some ⟨0, 0⟩ }),
       ("mouseup", { coo := some ⟨3, 4⟩ })]).1.state = "mousedown" :=
  ⟨rfl, rfl⟩

/-- Claim C1 (amended): dispatching `start`, then `mousedown` at (0, 0), then
`mousemove` at (3, 4) — needed because the finalization events are only
registered in the `'mousemove'`/`'draw'` states — then `mouseup` at (3, 4),
delivers exactly one Region descriptor to the completion callback, with
`r = 5`, `x = 0`, `y = 0` and `bbox() = {x: -5, y: -5, w: 10, h: 10}`. -/
theorem c1_amended_region :
    ∃ reg : Region,
      regionsDelivered (run (initMachine opts0 view0)
        [("start", { callback := true }),
         ("mousedown", { coo := some ⟨0, 0⟩ }),
         ("mousemove", { coo := some ⟨3, 4⟩ }),
         ("mouseup", { coo := some ⟨3, 4⟩ })]).2 = [reg] ∧
      reg.r = 5 ∧ reg.x = 0 ∧ reg.y = 0 ∧
      reg.bbox = { x := -5, y := -5, w := 10, h := 10 } := by
  have hr : (mkRegion (⟨0, 0⟩ : Coo) (⟨3, 4⟩ : Coo)).r = 5 := by
    show Real.sqrt (((3 : ℝ) - 0) * ((3 : ℝ) - 0) + ((4 : ℝ) - 0) * ((4 : ℝ) - 0)) = 5
    rw [show ((3 : ℝ) - 0) * ((3 : ℝ) - 0) + ((4 : ℝ) - 0) * ((4 : ℝ) - 0) = 5 ^ 2 by norm_num]
    exact Real.sqrt_sq (by norm_num)
  have hx : (mkRegion (⟨0, 0⟩ : Coo) (⟨3, 4⟩ : Coo)).x = 0 := rfl
  have hy : (mkRegion (⟨0, 0⟩ : Coo) (⟨3, 4⟩ : Coo)).y = 0 := rfl
  refine ⟨mkRegion ⟨0, 0⟩ ⟨3, 4⟩, rfl, hr, hx, hy, ?_⟩
  ext
  · show (mkRegion (⟨0, 0⟩ : Coo) (⟨3, 4⟩ : Coo)).x - (mkRegion (⟨0, 0⟩ : Coo) (⟨3, 4⟩ : Coo)).r = -5
    rw [hx, hr]; norm_num
  · show (mkRegion (⟨0, 0⟩ : Coo) (⟨3, 4⟩ : Coo)).y - (mkRegion (⟨0, 0⟩ : Coo) (⟨3, 4⟩ : Coo)).r = -5
    rw [hy, hr]; norm_num
  · show 2 * (mkRegion (⟨0, 0⟩ : Coo) (⟨3, 4⟩ : Coo)).r = 10
    rw [hr]; norm_num
  · show 2 * (mkRegion (⟨0, 0⟩ : Coo) (⟨3, 4⟩ : Coo)).r = 10
    rw [hr]; norm_num

/-- Claim C2: `mouseout` is literally the same handler as `mouseup`; from
every current state and pointer position, dispatching `mouseout` resolves to
the same handler as `mouseup`, emits the identical effect trace (hence
delivers the identical Region descriptors), and leaves the identical
gesture-visible state — the two finalizations differ at most in the
resulting FSM state name. -/
theorem c2_mouseout_mouseup_identical (s : String) (m : Machine) (p : Params) :
    mouseout = mouseup ∧
    lookupHandler s "mouseout" = lookupHandler s "mouseup" ∧
    (dispatch m "mouseout" p).2 = (dispatch m "mouseup" p).2 ∧
    regionsDelivered (dispatch m "mouseout" p).2
      = regionsDelivered (dispatch m "mouseup" p).2 ∧
    gestureOf (dispatch m "mouseout" p).1 = gestureOf (dispatch m "mouseup" p).1 := by
  have hl := lookup_mouseout_eq_mouseup m.state
  refine ⟨rfl, lookup_mouseout_eq_mouseup s, ?_⟩
  unfold dispatch
  rw [hl]
  rcases lookupHandler m.state "mouseup" with _ | f
  · exact ⟨rfl, rfl, rfl⟩
  · exact ⟨rfl, rfl, rfl⟩

/-- Claim C3: when no handler is registered under (current state, event
name), `dispatch` returns the machine unchanged and emits no effect. -/
theorem c3_unregistered_event_noop (m : Machine) (e : String) (p : Params)
    (h : lookupHandler m.state e = none) :
    dispatch m e p = (m, []) := by
  unfold dispatch
  rw [h]

/-- Claim C3 (witness): on a fresh instance (state `'mouseup'`) the `draw`
event has no registered handler and its dispatch is a no-op. -/
theorem c3_unregistered_event_noop_witness :
    lookupHandler (initMachine opts0 view0).state "draw" = none ∧
    dispatch (initMachine opts0 view0) "draw" noParams = (initMachine opts0 view0, []) :=
  ⟨rfl, c3_unregistered_event_noop (initMachine opts0 view0) "draw" noParams rfl⟩

/-- Claim C4: for the Region descriptor built at finalization from anchor `a`
and release position `c`: `contains` holds on the anchor itself and on the
four points at exactly distance `r` along the axes, fails on every point at
distance `r + ε` for `ε > 0`, and is definitionally the comparison of the
squared distance against the captured squared radius `r2` (no square
root). -/
theorem c4_contains_spec (a c : Coo) (ε : ℝ) (hε : 0 < ε) :
    (mkRegion a c).contains a ∧
    (mkRegion a c).contains ⟨a.x + (mkRegion a c).r, a.y⟩ ∧
    (mkRegion a c).contains ⟨a.x - (mkRegion a c).r, a.y⟩ ∧
    (mkRegion a c).contains ⟨a.x, a.y + (mkRegion a c).r⟩ ∧
    (mkRegion a c).contains ⟨a.x, a.y - (mkRegion a c).r⟩ ∧
    (∀ s : Coo,
      (s.x - a.x) * (s.x - a.x) + (s.y - a.y) * (s.y - a.y)
          = ((mkRegion a c).r + ε) * ((mkRegion a c).r + ε) →
        ¬ (mkRegion a c).contains s) ∧
    (∀ s : Coo,
      (mkRegion a c).contains s ↔
        (s.x - (mkRegion a c).x) * (s.x - (mkRegion a c).x)
            + (s.y - (mkRegion a c).y) * (s.y - (mkRegion a c).y)
          ≤ (mkRegion a c).r2) := by
  have h2 : (0 : ℝ) ≤ (c.x - a.x) * (c.x - a.x) + (c.y - a.y) * (c.y - a.y) :=
    add_nonneg (mul_self_nonneg _) (mul_self_nonneg _)
  have hrr : (mkRegion a c).r * (mkRegion a c).r
      = (c.x - a.x) * (c.x - a.x) + (c.y - a.y) * (c.y - a.y) :=
    Real.mul_self_sqrt h2
  have hrpos : (0 : ℝ) ≤ (mkRegion a c).r := Real.sqrt_nonneg _
  refine ⟨?_, ?_, ?_, ?_, ?_, ?_, fun s => Iff.rfl⟩
  · show (a.x - a.x) * (a.x - a.x) + (a.y - a.y) * (a.y - a.y)
        ≤ (c.x - a.x) * (c.x - a.x) + (c.y - a.y) * (c.y - a.y)
    nlinarith [mul_self_nonneg (c.x - a.x), mul_self_nonneg (c.y - a.y)]
  · show (a.x + (mkRegion a c).r - a.x) * (a.x + (mkRegion a c).r - a.x)
        + (a.y - a.y) * (a.y - a.y)
        ≤ (c.x - a.x) * (c.x - a.x) + (c.y - a.y) * (c.y - a.y)
    nlinarith [hrr]
  · show (a.x - (mkRegion a c).r - a.x) * (a.x - (mkRegion a c).r - a.x)
        + (a.y - a.y) * (a.y - a.y)
        ≤ (c.x - a.x) * (c.x - a.x) + (c.y - a.y) * (c.y - a.y)
    nlinarith [hrr]
  · show (a.x - a.x) * (a.x - a.x)
        + (a.y + (mkRegion a c).r - a.y) * (a.y + (mkRegion a c).r - a.y)
        ≤ (c.x - a.x) * (c.x - a.x) + (c.y - a.y) * (c.y - a.y)
    nlinarith [hrr]
  · show (a.x - a.x) * (a.x - a.x)
        + (a.y - (mkRegion a c).r - a.y) * (a.y - (mkRegion a c).r - a.y)
        ≤ (c.x - a.x) * (c.x - a.x) + (c.y - a.y) * (c.y - a.y)
    nlinarith [hrr]
  · intro s hs hc
    have hc' : (s.x - a.x) * (s.x - a.x) + (s.y - a.y) * (s.y - a.y)
        ≤ (c.x - a.x) * (c.x - a.x) + (c.y - a.y) * (c.y - a.y) := hc
    nlinarith [hrr, hrpos, hε]

/-- Claim C4 (witness): instantiation at anchor (0, 0), release (3, 4) and
`ε = 1`. -/
theorem c4_contains_spec_witness :
    (0 : ℝ) < 1 ∧
    ((mkRegion ⟨0, 0⟩ ⟨3, 4⟩).contains ⟨0, 0⟩ ∧
     (mkRegion ⟨0, 0⟩ ⟨3, 4⟩).contains ⟨(0 : ℝ) + (mkRegion ⟨0, 0⟩ ⟨3, 4⟩).r, 0⟩ ∧
     (mkRegion ⟨0, 0⟩ ⟨3, 4⟩).contains ⟨(0 : ℝ) - (mkRegion ⟨0, 0⟩ ⟨3, 4⟩).r, 0⟩ ∧
     (mkRegion ⟨0, 0⟩ ⟨3, 4⟩).contains ⟨0, (0 : ℝ) + (mkRegion ⟨0, 0⟩ ⟨3, 4⟩).r⟩ ∧
     (mkRegion ⟨0, 0⟩ ⟨3, 4⟩).contains ⟨0, (0 : ℝ) - (mkRegion ⟨0, 0⟩ ⟨3, 4⟩).r⟩ ∧
     (∀ s : Coo,
       (s.x - 0) * (s.x - 0) + (s.y - 0) * (s.y - 0)
           = ((mkRegion ⟨0, 0⟩ ⟨3, 4⟩).r + 1) * ((mkRegion ⟨0, 0⟩ ⟨3, 4⟩).r + 1) →
         ¬ (mkRegion ⟨0, 0⟩ ⟨3, 4⟩).contains s) ∧
     (∀ s : Coo,
       (mkRegion ⟨0, 0⟩ ⟨3, 4⟩).contains s ↔
         (s.x - (mkRegion ⟨0, 0⟩ ⟨3, 4⟩).x) * (s.x - (mkRegion ⟨0, 0⟩ ⟨3, 4⟩).x)
             + (s.y - (mkRegion ⟨0, 0⟩ ⟨3, 4⟩).y) * (s.y - (mkRegion ⟨0, 0⟩ ⟨3, 4⟩).y)
           ≤ (mkRegion ⟨0, 0⟩ ⟨3, 4⟩).r2)) :=
  ⟨one_pos, c4_contains_spec ⟨0, 0⟩ ⟨3, 4⟩ 1 one_pos⟩

/-- Claim C5: when no completion callback was stored, finalization delivers
no Region but still restores the reticle, the default cursor and the pan
interaction mode, still requests a redraw, and still performs the global
`'select'` notification whenever one is registered on the view; and the
finalization handler is the one registered on every finalization path
(`mouseup` and `mouseout` from both `'mousemove'` and `'draw'`). -/
theorem c5_no_callback_finalization (m : Machine) (p : Params) (a c : Coo)
    (hcb : m.callback = false) (ha : m.startCoo = some a) (hp : p.coo = some c) :
    regionsDelivered (mouseup p m).2 = [] ∧
    Effect.showReticle true ∈ (mouseup p m).2 ∧
    Effect.setCursor "default" ∈ (mouseup p m).2 ∧
    Effect.setMode Mode.pan ∈ (mouseup p m).2 ∧
    Effect.requestRedraw ∈ (mouseup p m).2 ∧
    (m.view.selectCallbackRegistered = true → Effect.selectNotify ∈ (mouseup p m).2) ∧
    (mouseup p m).1.view.mode = Mode.pan ∧
    (mouseup p m).1.view.reticleShown = true ∧
    (mouseup p m).1.view.cursor = "default" ∧
    lookupHandler "mousemove" "mouseup" = some mouseup ∧
    lookupHandler "mousemove" "mouseout" = some mouseup ∧
    lookupHandler "draw" "mouseup" = some mouseup ∧
    lookupHandler "draw" "mouseout" = some mouseup := by
  cases hsel : m.view.selectCallbackRegistered <;>
    simp [mouseup, hp, ha, hcb, hsel, regionsDelivered] <;>
    exact ⟨rfl, rfl, rfl, rfl⟩

/-- Claim C5 (witness): finalizing with no stored callback from anchor
(0, 0) at (3, 4) delivers nothing yet restores the pan mode. -/
theorem c5_no_callback_finalization_witness :
    ((initMachine opts0 view0).callback = false ∧
     ({ (initMachine opts0 view0) with startCoo := some ⟨0, 0⟩ }).startCoo = some (⟨0, 0⟩ : Coo) ∧
     ({ coo := some ⟨3, 4⟩ } : Params).coo = some (⟨3, 4⟩ : Coo)) ∧
    regionsDelivered
      (mouseup { coo := some ⟨3, 4⟩ }
        { (initMachine opts0 view0) with startCoo := some ⟨0, 0⟩ }).2 = [] ∧
    (mouseup { coo := some ⟨3, 4⟩ }
        { (initMachine opts0 view0) with startCoo := some ⟨0, 0⟩ }).1.view.mode = Mode.pan := by
  have h := c5_no_callback_finalization
    { (initMachine opts0 view0) with startCoo := some ⟨0, 0⟩ }
    { coo := some ⟨3, 4⟩ } ⟨0, 0⟩ ⟨3, 4⟩ rfl rfl rfl
  exact ⟨⟨rfl, rfl, rfl⟩, h.1, h.2.2.2.2.2.2.1⟩

/-- Claim C6 (counterexample): the `start` event is NOT handled in every
state — after `start`, `mousedown`, `mousemove` the machine is in state
`'mousemove'`, where dispatching `start` invokes no handler at all: the
state is unchanged and no effect (no cursor change, no reticle hiding, no
mode switch) is performed. -/
theorem c6_counterexample :
    (run (initMachine opts0 view0)
      [("start", { callback := true }),
       ("mousedown", { coo := some ⟨0, 0⟩ }),
       ("mousemove", { coo := some ⟨1, 1⟩ })]).1.state = "mousemove" ∧
    dispatch (run (initMachine opts0 view0)
      [("start", { callback := true }),
       ("mousedown", { coo := some ⟨0, 0⟩ }),
       ("mousemove", { coo := some ⟨1, 1⟩ })]).1 "start" { callback := true } =
      ((run (initMachine opts0 view0)
        [("start", { callback := true }),
         ("mousedown", { coo := some ⟨0, 0⟩ }),
         ("mousemove", { coo := some ⟨1, 1⟩ })]).1, []) :=
  ⟨rfl, rfl⟩

/-- Claim C6 (amended): in the states where `start` IS registered — exactly
`'mouseout'` and `'mouseup'`, i.e. the initial state and the post-
finalization states — dispatching `start` invokes the start handler (cursor
to crosshair, reticle hidden, callback stored, mode to select) and moves the
machine to state `'start'`, in which `mousedown` is the only registered
event: the machine awaits `mousedown` as the next gesture step. -/
theorem c6_amended_start_transition (m : Machine) (p : Params)
    (h : m.state = "mouseout" ∨ m.state = "mouseup") :
    (dispatch m "start" p).2 =
      [Effect.setCursor "crosshair", Effect.showReticle false, Effect.setMode Mode.select] ∧
    (dispatch m "start" p).1.state = "start" ∧
    (dispatch m "start" p).1.callback = p.callback ∧
    (dispatch m "start" p).1.view.cursor = "crosshair" ∧
    (dispatch m "start" p).1.view.reticleShown = false ∧
    (dispatch m "start" p).1.view.mode = Mode.select ∧
    lookupHandler "start" "mousedown" = some mousedown ∧
    (∀ e : String, e ≠ "mousedown" → lookupHandler "start" e = none) := by
  have hl : lookupHandler m.state "start" = some start := by
    rcases h with h | h <;> rw [h] <;> rfl
  unfold dispatch
  rw [hl]
  refine ⟨rfl, rfl, rfl, rfl, rfl, rfl, rfl, ?_⟩
  intro e he
  have h0 : lookupHandler "start" e = assocLookup e [("mousedown", mousedown)] := rfl
  rw [h0]
  simp [assocLookup, beq_iff_eq, he]

/-- Claim C6 (witness): on a fresh instance (state `'mouseup'`) the `start`
dispatch moves to state `'start'` in select mode. -/
theorem c6_amended_start_transition_witness :
    ((initMachine opts0 view0).state = "mouseout" ∨
      (initMachine opts0 view0).state = "mouseup") ∧
    (dispatch (initMachine opts0 view0) "start" { callback := true }).1.state = "start" ∧
    (dispatch (initMachine opts0 view0) "start" { callback := true }).1.view.mode = Mode.select := by
  have h := c6_amended_start_transition (initMachine opts0 view0)
    { callback := true } (Or.inr rfl)
  exact ⟨Or.inr rfl, h.2.1, h.2.2.2.2.2.1⟩

/-- Claim C8: for every Region descriptor, `bbox()` is the axis-aligned
square bounding the circle — top-left `(x - r, y - r)`, width and height
`2r` — and repeated evaluations of `bbox()` and `contains()` on the same
descriptor coincide (both are pure functions of the captured geometry). -/
theorem c8_bbox_pure (reg : Region) (s : Coo) :
    reg.bbox = { x := reg.x - reg.r, y := reg.y - reg.r, w := 2 * reg.r, h := 2 * reg.r } ∧
    reg.bbox = reg.bbox ∧ (reg.contains s ↔ reg.contains s) :=
  ⟨rfl, rfl, Iff.rfl⟩

/-- Claim C9: every event key of every row of the transition table (hence
every handler, reachable ones included) is also a state key of the table
— the handler-name-equals-destination-state convention is closed — and
consequently every dispatch that fires a handler moves the machine to a
state that is a key of the table. -/
theorem c9_table_closed :
    (circleTransitions.all fun se => se.2.all fun eh => stateKeys.contains eh.1) = true ∧
    ∀ (m : Machine) (e : String) (p : Params) (f : Handler),
      lookupHandler m.state e = some f →
        (dispatch m e p).1.state ∈ stateKeys := by
  refine ⟨rfl, ?_⟩
  intro m e p f h
  have hst : (dispatch m e p).1.state = e := by
    unfold dispatch; rw [h]
  rw [hst]
  rcases lookupHandler_cases h with ⟨_, he, _⟩ | ⟨_, he, _⟩ | ⟨_, he, _⟩ | ⟨_, he, _⟩ |
    ⟨_, he, _⟩ | ⟨_, he, _⟩ | ⟨_, he, _⟩ | ⟨_, he, _⟩ | ⟨_, he, _⟩ | ⟨_, he, _⟩ <;>
    subst he <;> decide

/-- Claim C9 (witness): the `start` transition from the initial state lands
in `'start'`, which is a state key of the table. -/
theorem c9_table_closed_witness :
    lookupHandler (initMachine opts0 view0).state "start" = some start ∧
    (dispatch (initMachine opts0 view0) "start" noParams).1.state ∈ stateKeys :=
  ⟨rfl, c9_table_closed.2 (initMachine opts0 view0) "start" noParams start rfl⟩


/-! ## Gesture-freshness and definedness invariants -/

/-- `mdCoos` on a `mousedown` event. -/
theorem mdCoos_mousedown (p : Params) : mdCoos "mousedown" p = p.coo.toList := rfl

/-- `anchorReads` distributes over trace concatenation. -/
theorem anchorReads_append (l1 l2 : List Effect) :
    anchorReads (l1 ++ l2) = anchorReads l1 ++ anchorReads l2 := by
  induction l1 with
  | nil => rfl
  | cons x rest ih => cases x <;> simp [anchorReads, ih]

/-- `anchorOk` is monotone in the allowed-coordinate list. -/
theorem anchorOk_mono {S S2 : List Coo} (hsub : ∀ x ∈ S, x ∈ S2) {m : Machine}
    (h : anchorOk S m) : anchorOk S2 m := by
  intro hs
  rcases h hs with h0 | ⟨x, hx, h0⟩
  · exact Or.inl h0
  · exact Or.inr ⟨x, hsub x hx, h0⟩

/-- `anchorOk` holds vacuously outside the in-gesture states. -/
theorem anchorOk_of_state {S : List Coo} {m : Machine}
    (hs : m.state = "start" ∨ m.state = "mouseup" ∨ m.state = "mouseout") :
    anchorOk S m := by
  intro htrig
  rcases hs with h | h | h <;> rcases htrig with h2 | h2 | h2 <;>
    rw [h] at h2 <;> exact absurd h2 (by decide)

/-- `anchorOk` is preserved by any step that keeps the anchor and enlarges
the allowed list. -/
theorem anchorOk_preserve {S S2 : List Coo} {m m2 : Machine}
    (hsub : ∀ x ∈ S, x ∈ S2)
    (hsc : m2.startCoo = m.startCoo)
    (hpre : m.startCoo = none ∨ ∃ x ∈ S, m.startCoo = some x) :
    anchorOk S2 m2 := by
  intro _
  rcases hpre with h0 | ⟨x0, hx0S, hx0⟩
  · exact Or.inl (by rw [hsc]; exact h0)
  · exact Or.inr ⟨x0, hsub x0 hx0S, by rw [hsc]; exact hx0⟩

/-- The centre of the Region built at finalization is the anchor. -/
theorem mkRegion_x (a c : Coo) : (mkRegion a c).x = a.x := rfl

/-- The centre of the Region built at finalization is the anchor. -/
theorem mkRegion_y (a c : Coo) : (mkRegion a c).y = a.y := rfl

/-- One dispatch step: every anchor read comes from the allowed list, and
the invariant survives with the step's own `mousedown` coordinate added. -/
theorem dispatch_anchor (m : Machine) (e : String) (p : Params) (S : List Coo)
    (hm : anchorOk S m) :
    (∀ x ∈ anchorReads (dispatch m e p).2, x ∈ S) ∧
    anchorOk (S ++ mdCoos e p) (dispatch m e p).1 := by
  rcases hd : lookupHandler m.state e with _ | f
  · rw [dispatch_eq_none hd]
    exact ⟨fun x hx => absurd hx (by simp [anchorReads]),
      anchorOk_mono (fun x hx => List.mem_append_left _ hx) hm⟩
  · rw [dispatch_eq_some hd]
    rcases lookupHandler_cases hd with
      ⟨hs, he, hf⟩ | ⟨hs, he, hf⟩ | ⟨hs, he, hf⟩ | ⟨hs, he, hf⟩ | ⟨hs, he, hf⟩ |
      ⟨hs, he, hf⟩ | ⟨hs, he, hf⟩ | ⟨hs, he, hf⟩ | ⟨hs, he, hf⟩ | ⟨hs, he, hf⟩ <;>
      subst he <;> subst hf
    · -- ("start", "mousedown", mousedown)
      refine ⟨fun x hx => absurd hx (by simp [mousedown, anchorReads]), fun _ => ?_⟩
      rcases hpc : p.coo with _ | c
      · exact Or.inl hpc
      · refine Or.inr ⟨c, List.mem_append_right _ ?_, hpc⟩
        simp [mdCoos_mousedown, hpc]
    · -- ("mousedown", "mousemove", mousemove)
      exact ⟨fun x hx => absurd hx (by simp [mousemove, anchorReads]),
        anchorOk_preserve (fun y hy => List.mem_append_left _ hy) rfl (hm (Or.inl hs))⟩
    · -- ("mousemove", "draw", draw)
      rcases hc : m.coo with _ | c <;> rcases ha : m.startCoo with _ | a
      · exact ⟨fun x hx => absurd hx (by simp [draw, hc, ha, anchorReads]),
          anchorOk_preserve (fun y hy => List.mem_append_left _ hy)
            (by simp [draw, hc, ha]) (hm (Or.inr (Or.inl hs)))⟩
      · exact ⟨fun x hx => absurd hx (by simp [draw, hc, ha, anchorReads]),
          anchorOk_preserve (fun y hy => List.mem_append_left _ hy)
            (by simp [draw, hc, ha]) (hm (Or.inr (Or.inl hs)))⟩
      · exact ⟨fun x hx => absurd hx (by simp [draw, hc, ha, anchorReads]),
          anchorOk_preserve (fun y hy => List.mem_append_left _ hy)
            (by simp [draw, hc, ha]) (hm (Or.inr (Or.inl hs)))⟩
      · rcases hm (Or.inr (Or.inl hs)) with h0 | ⟨x0, hx0S, hx0⟩
        · rw [ha] at h0; exact absurd h0 (by simp)
        · rw [ha] at hx0
          obtain rfl : a = x0 := Option.some.inj hx0
          refine ⟨fun x hx => ?_, anchorOk_preserve (fun y hy => List.mem_append_left _ hy)
            (by simp [draw, hc, ha]) (hm (Or.inr (Or.inl hs)))⟩
          rcases hclr : m.view.catalogCanvasCleared <;>
            simp [draw, hc, ha, hclr, anchorReads] at hx <;>
            (rw [hx]; exact hx0S)
    · -- ("mousemove", "mouseup", mouseup)
      rcases hc : p.coo with _ | c <;> rcases ha : m.startCoo with _ | a
      case' some.some =>
        rcases hm (Or.inr (Or.inl hs)) with h0 | ⟨x0, hx0S, hx0⟩
        · rw [ha] at h0; exact absurd h0 (by simp)
        · rw [ha] at hx0
          obtain rfl : a = x0 := Option.some.inj hx0
          refine ⟨fun x hx => ?_, anchorOk_of_state (Or.inr (Or.inl rfl))⟩
          rcases hcb : m.callback <;> rcases hsel : m.view.selectCallbackRegistered <;>
            simp [mouseup, hc, ha, hcb, hsel, anchorReads, anchorReads_append,
              mkRegion_x, mkRegion_y] at hx <;>
            (rw [hx]; exact hx0S)
      all_goals
        exact ⟨fun x hx => absurd hx (by simp [mouseup, hc, ha, anchorReads]),
          anchorOk_of_state (Or.inr (Or.inl rfl))⟩
    · -- ("mousemove", "mouseout", mouseup)
      rcases hc : p.coo with _ | c <;> rcases ha : m.startCoo with _ | a
      case' some.some =>
        rcases hm (Or.inr (Or.inl hs)) with h0 | ⟨x0, hx0S, hx0⟩
        · rw [ha] at h0; exact absurd h0 (by simp)
        · rw [ha] at hx0
          obtain rfl : a = x0 := Option.some.inj hx0
          refine ⟨fun x hx => ?_, anchorOk_of_state (Or.inr (Or.inr rfl))⟩
          rcases hcb : m.callback <;> rcases hsel : m.view.selectCallbackRegistered <;>
            simp [mouseup, hc, ha, hcb, hsel, anchorReads, anchorReads_append,
              mkRegion_x, mkRegion_y] at hx <;>
            (rw [hx]; exact hx0S)
      all_goals
        exact ⟨fun x hx => absurd hx (by simp [mouseup, hc, ha, anchorReads]),
          anchorOk_of_state (Or.inr (Or.inr rfl))⟩
    · -- ("draw", "mousemove", mousemove)
      exact ⟨fun x hx => absurd hx (by simp [mousemove, anchorReads]),
        anchorOk_preserve (fun y hy => List.mem_append_left _ hy) rfl
          (hm (Or.inr (Or.inr hs)))⟩
    · -- ("draw", "mouseup", mouseup)
      rcases hc : p.coo with _ | c <;> rcases ha : m.startCoo with _ | a
      case' some.some =>
        rcases hm (Or.inr (Or.inr hs)) with h0 | ⟨x0, hx0S, hx0⟩
        · rw [ha] at h0; exact absurd h0 (by simp)
        · rw [ha] at hx0
          obtain rfl : a = x0 := Option.some.inj hx0
          refine ⟨fun x hx => ?_, anchorOk_of_state (Or.inr (Or.inl rfl))⟩
          rcases hcb : m.callback <;> rcases hsel : m.view.selectCallbackRegistered <;>
            simp [mouseup, hc, ha, hcb, hsel, anchorReads, anchorReads_append,
              mkRegion_x, mkRegion_y] at hx <;>
            (rw [hx]; exact hx0S)
      all_goals
        exact ⟨fun x hx => absurd hx (by simp [mouseup, hc, ha, anchorReads]),
          anchorOk_of_state (Or.inr (Or.inl rfl))⟩
    · -- ("draw", "mouseout", mouseup)
      rcases hc : p.coo with _ | c <;> rcases ha : m.startCoo with _ | a
      case' some.some =>
        rcases hm (Or.inr (Or.inr hs)) with h0 | ⟨x0, hx0S, hx0⟩
        · rw [ha] at h0; exact absurd h0 (by simp)
        · rw [ha] at hx0
          obtain rfl : a = x0 := Option.some.inj hx0
          refine ⟨fun x hx => ?_, anchorOk_of_state (Or.inr (Or.inr rfl))⟩
          rcases hcb : m.callback <;> rcases hsel : m.view.selectCallbackRegistered <;>
            simp [mouseup, hc, ha, hcb, hsel, anchorReads, anchorReads_append,
              mkRegion_x, mkRegion_y] at hx <;>
            (rw [hx]; exact hx0S)
      all_goals
        exact ⟨fun x hx => absurd hx (by simp [mouseup, hc, ha, anchorReads]),
          anchorOk_of_state (Or.inr (Or.inr rfl))⟩
    · -- ("mouseout", "start", start)
      exact ⟨fun x hx => absurd hx (by simp [start, anchorReads]),
        anchorOk_of_state (Or.inl rfl)⟩
    · -- ("mouseup", "start", start)
      exact ⟨fun x hx => absurd hx (by simp [start, anchorReads]),
        anchorOk_of_state (Or.inl rfl)⟩

/-- Whole-run anchor provenance: every anchor read during a run is either an
initially allowed coordinate or the coordinate of some `mousedown` event of
the run itself. -/
theorem run_anchor (seq : List (String × Params)) (m : Machine) (S : List Coo)
    (hm : anchorOk S m) :
    (∀ x ∈ anchorReads (run m seq).2, x ∈ S ++ mousedownCoos seq) ∧
    anchorOk (S ++ mousedownCoos seq) (run m seq).1 := by
  induction seq generalizing m S with
  | nil =>
    refine ⟨fun x hx => absurd hx (by simp [run, anchorReads]), ?_⟩
    have h0 : mousedownCoos [] = [] := rfl
    rw [h0, List.append_nil]
    exact hm
  | cons ep rest ih =>
    rcases ep with ⟨e, p⟩
    have hstep := dispatch_anchor m e p S hm
    have hrest := ih (dispatch m e p).1 (S ++ mdCoos e p) hstep.2
    rw [run_cons]
    have hmem : mousedownCoos ((e, p) :: rest) = mdCoos e p ++ mousedownCoos rest := rfl
    constructor
    · intro x hx
      rw [anchorReads_append, List.mem_append] at hx
      rw [hmem, ← List.append_assoc]
      rcases hx with hx | hx
      · exact List.mem_append_left _ (List.mem_append_left _ (hstep.1 x hx))
      · exact hrest.1 x hx
    · rw [hmem, ← List.append_assoc]
      exact hrest.2

/-- One dispatch step either preserves the interaction mode, sets it to
select, or emits the finalization markers (`setMode pan`, reticle
restored). -/
theorem dispatch_mode (m : Machine) (e : String) (p : Params) :
    (dispatch m e p).1.view.mode = m.view.mode ∨
    (dispatch m e p).1.view.mode = Mode.select ∨
    (Effect.setMode Mode.pan ∈ (dispatch m e p).2 ∧
     Effect.showReticle true ∈ (dispatch m e p).2) := by
  rcases hd : lookupHandler m.state e with _ | f
  · rw [dispatch_eq_none hd]; exact Or.inl rfl
  · rw [dispatch_eq_some hd]
    rcases lookupHandler_cases hd with
      ⟨hs, he, hf⟩ | ⟨hs, he, hf⟩ | ⟨hs, he, hf⟩ | ⟨hs, he, hf⟩ | ⟨hs, he, hf⟩ |
      ⟨hs, he, hf⟩ | ⟨hs, he, hf⟩ | ⟨hs, he, hf⟩ | ⟨hs, he, hf⟩ | ⟨hs, he, hf⟩ <;>
      subst he <;> subst hf
    · exact Or.inl rfl
    · exact Or.inl rfl
    · left
      rcases hc : m.coo with _ | c <;> rcases ha : m.startCoo with _ | a <;>
        simp [draw, hc, ha]
    · rcases hc : p.coo with _ | c
      · left; simp [mouseup, hc]
      · rcases ha : m.startCoo with _ | a
        · left; simp [mouseup, hc, ha]
        · right; right
          constructor <;> simp [mouseup, hc, ha]
    · rcases hc : p.coo with _ | c
      · left; simp [mouseup, hc]
      · rcases ha : m.startCoo with _ | a
        · left; simp [mouseup, hc, ha]
        · right; right
          constructor <;> simp [mouseup, hc, ha]
    · exact Or.inl rfl
    · rcases hc : p.coo with _ | c
      · left; simp [mouseup, hc]
      · rcases ha : m.startCoo with _ | a
        · left; simp [mouseup, hc, ha]
        · right; right
          constructor <;> simp [mouseup, hc, ha]
    · rcases hc : p.coo with _ | c
      · left; simp [mouseup, hc]
      · rcases ha : m.startCoo with _ | a
        · left; simp [mouseup, hc, ha]
        · right; right
          constructor <;> simp [mouseup, hc, ha]
    · exact Or.inr (Or.inl rfl)
    · exact Or.inr (Or.inl rfl)

/-- If a run starting outside pan mode ends in pan mode, a finalization
handler executed during the run (it emitted `setMode pan` and restored
the reticle). -/
theorem run_mode_pan (seq : List (String × Params)) (m : Machine)
    (hmode : m.view.mode ≠ Mode.pan)
    (hpan : (run m seq).1.view.mode = Mode.pan) :
    Effect.setMode Mode.pan ∈ (run m seq).2 ∧
    Effect.showReticle true ∈ (run m seq).2 := by
  induction seq generalizing m with
  | nil => exact absurd hpan hmode
  | cons ep rest ih =>
    rcases ep with ⟨e, p⟩
    rw [run_cons] at hpan ⊢
    rcases dispatch_mode m e p with hmode1 | hmode1 | ⟨h1, h2⟩
    · have hres := ih (dispatch m e p).1 (by rw [hmode1]; exact hmode) hpan
      exact ⟨List.mem_append_right _ hres.1, List.mem_append_right _ hres.2⟩
    · have hres := ih (dispatch m e p).1
        (by intro hcon; rw [hmode1] at hcon; exact Mode.noConfusion hcon) hpan
      exact ⟨List.mem_append_right _ hres.1, List.mem_append_right _ hres.2⟩
    · exact ⟨List.mem_append_left _ h1, List.mem_append_left _ h2⟩

/-- Claim C7: dispatching `start` after a finalization (state `'mouseup'` or
`'mouseout'`) moves to state `'start'`, overwrites the stored callback with
the newly supplied one, and switches the mode to select; from there, every
anchor ever read by a `draw` or finalization handler (painted centre or
delivered Region centre) is the coordinate of a `mousedown` dispatched in
the new run — a stale anchor of a prior gesture can never be used — and the
mode returns to pan only by way of a finalization of the new run. -/
theorem c7_start_fresh_gesture (m : Machine) (p : Params)
    (hfin : m.state = "mouseout" ∨ m.state = "mouseup") :
    (dispatch m "start" p).1.state = "start" ∧
    (dispatch m "start" p).1.callback = p.callback ∧
    (dispatch m "start" p).1.view.mode = Mode.select ∧
    (∀ seq : List (String × Params),
      ∀ x ∈ anchorReads (run (dispatch m "start" p).1 seq).2, x ∈ mousedownCoos seq) ∧
    (∀ seq : List (String × Params),
      (run (dispatch m "start" p).1 seq).1.view.mode = Mode.pan →
        Effect.setMode Mode.pan ∈ (run (dispatch m "start" p).1 seq).2 ∧
        Effect.showReticle true ∈ (run (dispatch m "start" p).1 seq).2) := by
  have hl : lookupHandler m.state "start" = some start := by
    rcases hfin with h | h <;> rw [h] <;> rfl
  rw [dispatch_eq_some hl]
  refine ⟨rfl, rfl, rfl, ?_, ?_⟩
  · intro seq x hx
    have h0 := run_anchor seq { (start p m).1 with state := "start" } []
      (anchorOk_of_state (Or.inl rfl))
    simpa using h0.1 x hx
  · intro seq hpan
    exact run_mode_pan seq _ (fun hcon => Mode.noConfusion hcon) hpan

/-- Claim C7 (witness): instantiation on a fresh machine, whose state
`'mouseup'` is a finalization state. -/
theorem c7_start_fresh_gesture_witness :
    ((initMachine opts0 view0).state = "mouseout" ∨
      (initMachine opts0 view0).state = "mouseup") ∧
    (dispatch (initMachine opts0 view0) "start" { callback := true }).1.state = "start" ∧
    (dispatch (initMachine opts0 view0) "start" { callback := true }).1.view.mode
      = Mode.select := by
  have h := c7_start_fresh_gesture (initMachine opts0 view0)
    { callback := true } (Or.inr rfl)
  exact ⟨Or.inr rfl, h.1, h.2.2.1⟩

/-- `coosOk` holds vacuously outside the in-gesture states. -/
theorem coosOk_of_state {m : Machine}
    (hs : m.state = "start" ∨ m.state = "mouseup" ∨ m.state = "mouseout") :
    coosOk m := by
  constructor
  · intro h2
    rcases hs with h | h | h <;> rw [h] at h2 <;> exact absurd h2 (by decide)
  · intro h2
    rcases hs with h | h | h <;> rcases h2 with h2 | h2 <;> rw [h] at h2 <;>
      exact absurd h2 (by decide)

/-- One dispatch step of a well-formed event neither performs an undefined
read nor breaks the definedness invariant. -/
theorem dispatch_coos (m : Machine) (e : String) (p : Params)
    (hwf : ptrEvent e = true → p.coo.isSome = true)
    (hm : coosOk m) :
    Effect.undefinedRead ∉ (dispatch m e p).2 ∧ coosOk (dispatch m e p).1 := by
  rcases hd : lookupHandler m.state e with _ | f
  · rw [dispatch_eq_none hd]
    exact ⟨by simp, hm⟩
  · rw [dispatch_eq_some hd]
    rcases lookupHandler_cases hd with
      ⟨hs, he, hf⟩ | ⟨hs, he, hf⟩ | ⟨hs, he, hf⟩ | ⟨hs, he, hf⟩ | ⟨hs, he, hf⟩ |
      ⟨hs, he, hf⟩ | ⟨hs, he, hf⟩ | ⟨hs, he, hf⟩ | ⟨hs, he, hf⟩ | ⟨hs, he, hf⟩ <;>
      subst he <;> subst hf
    · -- ("start", "mousedown", mousedown)
      exact ⟨by simp [mousedown],
        ⟨fun _ => hwf rfl,
         fun h2 => absurd
          (show ("mousedown" : String) = "mousemove" ∨ ("mousedown" : String) = "draw" from h2)
          (by decide)⟩⟩
    · -- ("mousedown", "mousemove", mousemove)
      exact ⟨by simp [mousemove],
        ⟨fun h2 => absurd (show ("mousemove" : String) = "mousedown" from h2) (by decide),
         fun _ => ⟨hm.1 hs, hwf rfl⟩⟩⟩
    · -- ("mousemove", "draw", draw)
      have hpre := hm.2 (Or.inl hs)
      rcases hps : m.startCoo with _ | a
      · rw [hps] at hpre; exact absurd hpre.1 (by simp)
      rcases hpc : m.coo with _ | c
      · rw [hpc] at hpre; exact absurd hpre.2 (by simp)
      refine ⟨?_,
        ⟨fun h2 => absurd (show ("draw" : String) = "mousedown" from h2) (by decide),
         fun _ => ⟨?_, ?_⟩⟩⟩
      · rcases hclr : m.view.catalogCanvasCleared <;> simp [draw, hps, hpc, hclr]
      · show (draw p m).1.startCoo.isSome = true
        have hd1s : (draw p m).1.startCoo = m.startCoo := by simp [draw, hps, hpc]
        rw [hd1s, hps]; rfl
      · show (draw p m).1.coo.isSome = true
        have hd1c : (draw p m).1.coo = m.coo := by simp [draw, hps, hpc]
        rw [hd1c, hpc]; rfl
    · -- ("mousemove", "mouseup", mouseup)
      have hpre := hm.2 (Or.inl hs)
      rcases hps : m.startCoo with _ | a
      · rw [hps] at hpre; exact absurd hpre.1 (by simp)
      rcases hpc : p.coo with _ | c
      · have hcs := hwf rfl; rw [hpc] at hcs; exact absurd hcs (by simp)
      refine ⟨?_, coosOk_of_state (Or.inr (Or.inl rfl))⟩
      rcases hcb : m.callback <;> rcases hsel : m.view.selectCallbackRegistered <;>
        simp [mouseup, hpc, hps, hcb, hsel]
    · -- ("mousemove", "mouseout", mouseup)
      have hpre := hm.2 (Or.inl hs)
      rcases hps : m.startCoo with _ | a
      · rw [hps] at hpre; exact absurd hpre.1 (by simp)
      rcases hpc : p.coo with _ | c
      · have hcs := hwf rfl; rw [hpc] at hcs; exact absurd hcs (by simp)
      refine ⟨?_, coosOk_of_state (Or.inr (Or.inr rfl))⟩
      rcases hcb : m.callback <;> rcases hsel : m.view.selectCallbackRegistered <;>
        simp [mouseup, hpc, hps, hcb, hsel]
    · -- ("draw", "mousemove", mousemove)
      exact ⟨by simp [mousemove],
        ⟨fun h2 => absurd (show ("mousemove" : String) = "mousedown" from h2) (by decide),
         fun _ => ⟨(hm.2 (Or.inr hs)).1, hwf rfl⟩⟩⟩
    · -- ("draw", "mouseup", mouseup)
      have hpre := hm.2 (Or.inr hs)
      rcases hps : m.startCoo with _ | a
      · rw [hps] at hpre; exact absurd hpre.1 (by simp)
      rcases hpc : p.coo with _ | c
      · have hcs := hwf rfl; rw [hpc] at hcs; exact absurd hcs (by simp)
      refine ⟨?_, coosOk_of_state (Or.inr (Or.inl rfl))⟩
      rcases hcb : m.callback <;> rcases hsel : m.view.selectCallbackRegistered <;>
        simp [mouseup, hpc, hps, hcb, hsel]
    · -- ("draw", "mouseout", mouseup)
      have hpre := hm.2 (Or.inr hs)
      rcases hps : m.startCoo with _ | a
      · rw [hps] at hpre; exact absurd hpre.1 (by simp)
      rcases hpc : p.coo with _ | c
      · have hcs := hwf rfl; rw [hpc] at hcs; exact absurd hcs (by simp)
      refine ⟨?_, coosOk_of_state (Or.inr (Or.inr rfl))⟩
      rcases hcb : m.callback <;> rcases hsel : m.view.selectCallbackRegistered <;>
        simp [mouseup, hpc, hps, hcb, hsel]
    · -- ("mouseout", "start", start)
      exact ⟨by simp [start], coosOk_of_state (Or.inl rfl)⟩
    · -- ("mouseup", "start", start)
      exact ⟨by simp [start], coosOk_of_state (Or.inl rfl)⟩

/-- No run maintaining the definedness invariant ever performs an undefined
read, provided every pointer event carries a coordinate. -/
theorem run_coos (seq : List (String × Params)) (m : Machine)
    (hwf : wfSeq seq = true) (hm : coosOk m) :
    Effect.undefinedRead ∉ (run m seq).2 := by
  induction seq generalizing m with
  | nil => simp [run]
  | cons ep rest ih =>
    rcases ep with ⟨e, p⟩
    rw [wfSeq, List.all_cons] at hwf
    rcases Bool.and_eq_true_iff.mp hwf with ⟨hwf1, hwf2⟩
    have hwf1' : ptrEvent e = true → p.coo.isSome = true := by
      intro hpe
      rcases Bool.or_eq_true_iff.mp hwf1 with h | h
      · rw [hpe] at h; exact absurd h (by decide)
      · exact h
    have hstep := dispatch_coos m e p hwf1' hm
    rw [run_cons]
    intro hmem
    rcases List.mem_append.mp hmem with hmem | hmem
    · exact hstep.1 hmem
    · exact ih (dispatch m e p).1 hwf2 hstep.2 hmem

/-- Claim C10: on a fresh instance, for every event sequence whose pointer
events carry coordinates, no handler ever dereferences an undefined
`startCoo` or `coo`: the `draw` and finalization handlers only run once the
current gesture's `mousedown` (and, for `draw`, a `mousemove`) have set
them. -/
theorem c10_no_undefined_reads (o : Options) (v : ViewState)
    (seq : List (String × Params)) (hwf : wfSeq seq = true) :
    Effect.undefinedRead ∉ (run (initMachine o v) seq).2 :=
  run_coos seq (initMachine o v) hwf
    (coosOk_of_state (Or.inr (Or.inl rfl)))

/-- Claim C10 (witness): a complete concrete gesture performs no undefined
read. -/
theorem c10_no_undefined_reads_witness :
    wfSeq [("start", { callback := true }),
           ("mousedown", { coo := some ⟨0, 0⟩ }),
           ("mousemove", { coo := some ⟨3, 4⟩ }),
           ("draw", noParams),
           ("mouseup", { coo := some ⟨3, 4⟩ })] = true ∧
    Effect.undefinedRead ∉ (run (initMachine opts0 view0)
      [("start", { callback := true }),
       ("mousedown", { coo := some ⟨0, 0⟩ }),
       ("mousemove", { coo := some ⟨3, 4⟩ }),
       ("draw", noParams),
       ("mouseup", { coo := some ⟨3, 4⟩ })]).2 :=
  ⟨rfl, c10_no_undefined_reads opts0 view0 _ rfl⟩

end CircleSelect
